import Mathlib

/-!
Verification development for the experiment-run pagination subsystem of the
Phoenix GraphQL server.  The two source files embedded here are

  * `src/phoenix/server/api/types/Experiment.py` — the `Experiment.runs`
    resolver (page assembly: page size, default ordering, after-cursor
    predicate, trimming, connection construction);
  * `src/phoenix/server/api/input_types/ExperimentRunSort.py` — the keyset
    query builder (`add_order_by_and_page_start_to_query` and its helpers).

The relational store is modelled as a list of experiment-run rows; SQLAlchemy
`Select` objects are modelled as a record of WHERE clauses, ORDER BY columns
and a LIMIT, together with an executable evaluator implementing SQL
three-valued comparison semantics (a scalar subquery over a missing row
yields NULL, and a comparison against NULL is unknown, so the row is
filtered out).
-/

namespace Phoenix

/-- A row of the `experiment_runs` table.  Only the columns touched by the
embedded code are modelled.  `latency_ms` is modelled as an integer: the code
only ever compares it, never does arithmetic on it. -/
structure ExperimentRunRow where
  id : Int
  experiment_id : Int
  dataset_example_id : Int
  repetition_number : Int
  latency_ms : Int
deriving DecidableEq, Repr

/-- Sort direction enumeration (`SortDir` in `phoenix/server/api/types/SortDir.py`),
also used for the `.asc()` / `.desc()` modifiers on ORDER BY columns. -/
inductive SortDir where
  | asc
  | desc
deriving DecidableEq, Repr

/-- The closed metric enumeration `ExperimentRunMetric`
(ExperimentRunSort.py lines 13-17). -/
inductive ExperimentRunMetric where
  | tokenCountTotal
  | latencyMs
  | tokenCostTotal
deriving DecidableEq, Repr

/-- The one-of column selector `ExperimentRunColumn` (ExperimentRunSort.py
lines 20-23).  The `ann_name` field embeds the annotation-name selector. -/
structure ExperimentRunColumn where
  metric : Option ExperimentRunMetric
  ann_name : Option String
deriving DecidableEq, Repr

/-- The sort input `ExperimentRunSort` (ExperimentRunSort.py lines 26-29). -/
structure ExperimentRunSort where
  col : ExperimentRunColumn
  dir : SortDir
deriving DecidableEq, Repr

/-- The columns of `models.ExperimentRun` referenced by the embedded code. -/
inductive Col where
  | id
  | experiment_id
  | dataset_example_id
  | repetition_number
  | latency_ms
deriving DecidableEq, Repr

/-- Value of a column on a row. -/
def colValue : Col → ExperimentRunRow → Int
  | .id, r => r.id
  | .experiment_id, r => r.experiment_id
  | .dataset_example_id, r => r.dataset_example_id
  | .repetition_number, r => r.repetition_number
  | .latency_ms, r => r.latency_ms

/-- SQL values produced by evaluating scalar expressions: integers, NULL
(e.g. a scalar subquery over an empty row set), and row values (tuples). -/
inductive SqlVal where
  | int (n : Int)
  | null
  | pair (a b : SqlVal)
deriving DecidableEq, Repr

/-- Scalar SQL expressions appearing in the embedded queries: column
references, integer literals, scalar subqueries of the form
`SELECT col FROM experiment_runs WHERE id = rowid`, and two-element tuples
(`tuple_` in SQLAlchemy). -/
inductive SqlExpr where
  | col (c : Col)
  | lit (n : Int)
  | scalarSubquery (c : Col) (rowid : Int)
  | tuple2 (a b : SqlExpr)
deriving DecidableEq, Repr

/-- Boolean SQL expressions appearing in WHERE clauses. -/
inductive SqlBoolExpr where
  | gt (a b : SqlExpr)
  | lt (a b : SqlExpr)
  | eq (a b : SqlExpr)
deriving DecidableEq, Repr

/-- Integer comparison, as performed by the SQL engine. -/
def intCmp (a b : Int) : Ordering :=
  if a < b then .lt else if a = b then .eq else .gt

/-- Three-valued SQL comparison.  `none` is SQL's `unknown`: any comparison
involving NULL is unknown; row values compare lexicographically, with the
first strict component deciding (matching SQL row-value comparison). -/
def sqlCmp : SqlVal → SqlVal → Option Ordering
  | .int a, .int b => some (intCmp a b)
  | .pair a1 a2, .pair b1 b2 =>
    match sqlCmp a1 b1 with
    | some Ordering.eq => sqlCmp a2 b2
    | some o => some o
    | none => none
  | _, _ => none

/-- Evaluate a scalar expression against a database and a candidate row.
A scalar subquery whose row does not exist evaluates to NULL. -/
def evalExpr (db : List ExperimentRunRow) (row : ExperimentRunRow) : SqlExpr → SqlVal
  | .col c => .int (colValue c row)
  | .lit n => .int n
  | .scalarSubquery c rowid =>
    match db.find? (fun r => r.id == rowid) with
    | some r => .int (colValue c r)
    | none => .null
  | .tuple2 a b => .pair (evalExpr db row a) (evalExpr db row b)

/-- Evaluate a boolean expression; `none` is SQL `unknown`. -/
def evalBool (db : List ExperimentRunRow) (row : ExperimentRunRow) :
    SqlBoolExpr → Option Bool
  | .gt a b =>
    (sqlCmp (evalExpr db row a) (evalExpr db row b)).map (fun o => decide (o = Ordering.gt))
  | .lt a b =>
    (sqlCmp (evalExpr db row a) (evalExpr db row b)).map (fun o => decide (o = Ordering.lt))
  | .eq a b =>
    (sqlCmp (evalExpr db row a) (evalExpr db row b)).map (fun o => decide (o = Ordering.eq))

/-- A row passes a WHERE clause list iff every clause evaluates to true
(SQL keeps a row only when the conjunction is true, not NULL). -/
def rowPassesWhere (db : List ExperimentRunRow) (clauses : List SqlBoolExpr)
    (r : ExperimentRunRow) : Bool :=
  clauses.all (fun e => decide (evalBool db r e = some true))

/-- Model of a SQLAlchemy `Select` over the `experiment_runs` table:
accumulated WHERE clauses, ORDER BY columns with direction, and LIMIT. -/
structure Select where
  whereClauses : List SqlBoolExpr
  orderByCols : List (Col × SortDir)
  limitN : Option Int
deriving DecidableEq, Repr

/-- The bare `select(models.ExperimentRun)`. -/
def Select.init : Select := ⟨[], [], none⟩

/-- `query.where(e)` appends a WHERE clause. -/
def Select.whereAdd (q : Select) (e : SqlBoolExpr) : Select :=
  { q with whereClauses := q.whereClauses ++ [e] }

/-- `query.order_by(c1, c2, ...)` appends ORDER BY columns. -/
def Select.orderByAdd (q : Select) (cols : List (Col × SortDir)) : Select :=
  { q with orderByCols := q.orderByCols ++ cols }

/-- `query.limit(n)` sets the LIMIT. -/
def Select.limitSet (q : Select) (n : Int) : Select :=
  { q with limitN := some n }

/-- Comparator induced by an ORDER BY column list: lexicographic by the
columns, each ascending or descending; rows equal on all keys compare `true`
(ties are broken arbitrarily by the engine; the sort below keeps them in
scan order). -/
def ordKeyLe (cols : List (Col × SortDir)) (r s : ExperimentRunRow) : Bool :=
  match cols with
  | [] => true
  | (c, d) :: rest =>
    let x := colValue c r
    let y := colValue c s
    if x = y then ordKeyLe rest r s
    else
      match d with
      | .asc => decide (x < y)
      | .desc => decide (y < x)

/-- Insert into a list sorted by `le`. -/
def insertOrd (le : ExperimentRunRow → ExperimentRunRow → Bool)
    (x : ExperimentRunRow) : List ExperimentRunRow → List ExperimentRunRow
  | [] => [x]
  | y :: ys => if le x y then x :: y :: ys else y :: insertOrd le x ys

/-- Insertion sort by `le`: models the engine's ORDER BY. -/
def sortByLe (le : ExperimentRunRow → ExperimentRunRow → Bool) :
    List ExperimentRunRow → List ExperimentRunRow
  | [] => []
  | x :: xs => insertOrd le x (sortByLe le xs)

/-- Execute a `Select` against the database: filter by the WHERE clauses,
sort by the ORDER BY columns, apply the LIMIT.  A negative LIMIT is clamped
to zero. -/
def runSelect (db : List ExperimentRunRow) (q : Select) : List ExperimentRunRow :=
  let filtered := db.filter (rowPassesWhere db q.whereClauses)
  let sorted := sortByLe (ordKeyLe q.orderByCols) filtered
  match q.limitN with
  | none => sorted
  | some n => sorted.take n.toNat

/-- Python's `xs[:n]` slice: a nonnegative `n` keeps the first `n` elements,
a negative `n` drops the last `-n` elements. -/
def pySliceTo (xs : List ExperimentRunRow) (n : Int) : List ExperimentRunRow :=
  if 0 ≤ n then xs.take n.toNat else xs.take (xs.length - (-n).toNat)

/-- Modelled from the spec: the opaque relay `GlobalID` token.  The strawberry
`GlobalID` implementation is not under `src/`; the spec describes `after` as
"opaque identity token decodable to a row identity of the expected entity
type".  The token carries a type name and a node-id payload string. -/
structure GlobalID where
  type_name : String
  node_id : String
deriving DecidableEq, Repr

/-- Parse a digit string into a natural number; `none` when any character is
not a decimal digit. -/
def decodeDigitsAux : List Char → Nat → Option Nat
  | [], acc => some acc
  | c :: cs, acc =>
    if 48 ≤ c.toNat ∧ c.toNat ≤ 57 then
      decodeDigitsAux cs (acc * 10 + (c.toNat - 48))
    else
      none

/-- Decode a node-id payload: a nonempty all-digit string. -/
def decodeNodeId (s : String) : Option Nat :=
  match s.toList with
  | [] => none
  | cs => decodeDigitsAux cs 0

/-- Modelled from the spec: `from_global_id_with_expected_type` (imported by
`Experiment.py` from `phoenix/server/api/types/node.py`, which is not under
`src/`).  Per the spec the token must be "decodable to a row identity of the
expected entity type"; decoding fails (the Python code raises `ValueError`)
when the type name differs from the expected one or the payload is not an
integer id. -/
def from_global_id_with_expected_type (gid : GlobalID) (expected_type : String) :
    Except String Int :=
  if gid.type_name = expected_type then
    match decodeNodeId gid.node_id with
    | some n => .ok (Int.ofNat n)
    | none => .error "could not decode id"
  else
    .error "unexpected type name"

/-! ## Keyset query builder (`ExperimentRunSort.py`) -/

/-- `_get_order_by_columns` (ExperimentRunSort.py lines 46-67).  Each Python
`raise NotImplementedError` becomes `Except.error`; the final fall-through
`raise` covers the annotation-name selector (truthy `sort` whose `col.metric`
is unset). -/
def get_order_by_columns (sort : Option ExperimentRunSort) :
    Except String (List (Col × SortDir)) :=
  match sort with
  | none =>
    .ok [(Col.dataset_example_id, SortDir.asc), (Col.repetition_number, SortDir.asc)]
  | some sort =>
    match sort.col.metric with
    | some metric =>
      match metric with
      | .tokenCountTotal => .error "NotImplementedError"
      | .latencyMs =>
        match sort.dir with
        | .asc => .ok [(Col.latency_ms, SortDir.asc)]
        | .desc => .ok [(Col.latency_ms, SortDir.desc)]
      | .tokenCostTotal => .error "NotImplementedError"
    | none => .error "NotImplementedError"

/-- `_get_after_expression` (ExperimentRunSort.py lines 70-114).  In the
no-sort branch the two scalar subqueries read `dataset_example_id` and
`repetition_number` from the row whose `id` equals the resume identifier, and
the predicate is the strict tuple comparison
`(dataset_example_id, repetition_number) > (example_id, repetition_number)`.
In the latency branch the predicate is a scalar comparison of `latency_ms`
against the identified row's latency: `>` when ascending, `<` when
descending. -/
def get_after_expression (sort : Option ExperimentRunSort)
    (experiment_run_rowid : Int) : Except String SqlBoolExpr :=
  match sort with
  | none =>
    .ok (SqlBoolExpr.gt
      (SqlExpr.tuple2 (SqlExpr.col Col.dataset_example_id)
        (SqlExpr.col Col.repetition_number))
      (SqlExpr.tuple2
        (SqlExpr.scalarSubquery Col.dataset_example_id experiment_run_rowid)
        (SqlExpr.scalarSubquery Col.repetition_number experiment_run_rowid)))
  | some sort =>
    match sort.col.metric with
    | some metric =>
      match metric with
      | .tokenCountTotal => .error "NotImplementedError"
      | .latencyMs =>
        match sort.dir with
        | .asc =>
          .ok (SqlBoolExpr.gt (SqlExpr.col Col.latency_ms)
            (SqlExpr.scalarSubquery Col.latency_ms experiment_run_rowid))
        | .desc =>
          .ok (SqlBoolExpr.lt (SqlExpr.col Col.latency_ms)
            (SqlExpr.scalarSubquery Col.latency_ms experiment_run_rowid))
      | .tokenCostTotal => .error "NotImplementedError"
    | none => .error "NotImplementedError"

/-- `_add_joins_to_query` (ExperimentRunSort.py lines 117-134): no extra joins
for the default ordering or the latency metric; `Except.error` for the
unimplemented metrics and the annotation path. -/
def add_joins_to_query (query : Select) (sort : Option ExperimentRunSort) :
    Except String Select :=
  match sort with
  | none => .ok query
  | some sort =>
    match sort.col.metric with
    | some metric =>
      match metric with
      | .tokenCountTotal => .error "NotImplementedError"
      | .latencyMs => .ok query
      | .tokenCostTotal => .error "NotImplementedError"
    | none => .error "NotImplementedError"

/-- `add_order_by_and_page_start_to_query` (ExperimentRunSort.py lines 32-43):
append the resolved ORDER BY columns, then, only when a resume identifier is
supplied, the after-predicate as a WHERE clause, then the joins. -/
def add_order_by_and_page_start_to_query (query : Select)
    (sort : Option ExperimentRunSort) (after_experiment_run_rowid : Option Int) :
    Except String Select := do
  let order_by_columns ← get_order_by_columns sort
  let query := query.orderByAdd order_by_columns
  let query ←
    match after_experiment_run_rowid with
    | some rowid => do
      let after_expression ← get_after_expression sort rowid
      pure (query.whereAdd after_expression)
    | none => pure query
  let query ← add_joins_to_query query sort
  pure query

/-! ## The `Experiment.runs` resolver (`Experiment.py` lines 57-127) -/

/-- `_DEFAULT_EXPERIMENT_RUNS_PAGE_SIZE` (Experiment.py line 26). -/
def DEFAULT_EXPERIMENT_RUNS_PAGE_SIZE : Int := 50

/-- Errors the resolver can raise: `NotImplementedError` (a sort was
supplied) and `BadRequest` (invalid `after` token, carrying the token). -/
inductive RunsError where
  | notImplementedError
  | badRequest (after : GlobalID)
deriving DecidableEq, Repr

/-- A relay connection: one edge per returned run (its cursor — a `GlobalID`
of the run's own identity — and the run), plus the two page flags.
Embeds the value built by `connection_from_cursors_and_nodes`
(Experiment.py lines 121-127). -/
structure Connection where
  edges : List (GlobalID × ExperimentRunRow)
  hasPreviousPage : Bool
  hasNextPage : Bool
deriving DecidableEq, Repr

/-- The base query of `Experiment.runs` (Experiment.py lines 67-72):
`select(models.ExperimentRun)` filtered to the parent experiment with
`LIMIT page_size + 1`.  The `joinedload` option only eager-loads the related
trace and does not affect which rows are returned, so it is not modelled. -/
def experiment_runs_query (experiment_id : Int) (page_size : Int) : Select :=
  ((Select.init).whereAdd
    (SqlBoolExpr.eq (SqlExpr.col Col.experiment_id) (SqlExpr.lit experiment_id))).limitSet
    (page_size + 1)

/-- The after-predicate built inline by `Experiment.runs`
(Experiment.py lines 90-111): two scalar subqueries read the identified row's
`dataset_example_id` and `repetition_number`, and the WHERE clause is the
strict tuple comparison against them. -/
def runsAfterClause (after_run_id : Int) : SqlBoolExpr :=
  SqlBoolExpr.gt
    (SqlExpr.tuple2 (SqlExpr.col Col.dataset_example_id)
      (SqlExpr.col Col.repetition_number))
    (SqlExpr.tuple2
      (SqlExpr.scalarSubquery Col.dataset_example_id after_run_id)
      (SqlExpr.scalarSubquery Col.repetition_number after_run_id))

/-- The WHERE clauses of the query `Experiment.runs` executes: the parent
experiment filter, then (when a resume row id was decoded) the
after-predicate. -/
def runsWhereClauses (experiment_id : Int) (after_run_id : Option Int) :
    List SqlBoolExpr :=
  match after_run_id with
  | none => [SqlBoolExpr.eq (SqlExpr.col Col.experiment_id) (SqlExpr.lit experiment_id)]
  | some rid =>
    [SqlBoolExpr.eq (SqlExpr.col Col.experiment_id) (SqlExpr.lit experiment_id),
     runsAfterClause rid]

/-- The query `Experiment.runs` sends to the store in its only returning path
(no sort): the base query, ordered by
`(dataset_example_id asc, repetition_number asc)` (lines 77-80), with the
after-predicate appended when an `after` cursor was decoded (lines 100-111). -/
def runsFinalQuery (experiment_id : Int) (page_size : Int)
    (after_run_id : Option Int) : Select :=
  let q := (experiment_runs_query experiment_id page_size).orderByAdd
    [(Col.dataset_example_id, SortDir.asc), (Col.repetition_number, SortDir.asc)]
  match after_run_id with
  | none => q
  | some rid => q.whereAdd (runsAfterClause rid)

/-- Page assembly (Experiment.py lines 113-127): execute the query, detect
the extra row (`len(runs) > page_size`), trim with the Python slice
`runs[:page_size]`, and build the connection with one cursor per run
(`GlobalID("ExperimentRun", str(run.id_attr))`) and
`has_previous_page = False`. -/
def runsPage (db : List ExperimentRunRow) (experiment_id : Int)
    (page_size : Int) (after_run_id : Option Int) : Connection :=
  let rows := runSelect db (runsFinalQuery experiment_id page_size after_run_id)
  let has_next_page := decide (page_size < (rows.length : Int))
  let page_rows :=
    if page_size < (rows.length : Int) then pySliceTo rows page_size else rows
  { edges := page_rows.map (fun r => (⟨"ExperimentRun", toString r.id⟩, r)),
    hasPreviousPage := false,
    hasNextPage := has_next_page }

/-- `Experiment.runs` (Experiment.py lines 57-127).  `page_size` is `first`
when not null, else the default 50 (line 66).  A supplied sort raises
`NotImplementedError` before anything else (lines 74-75; the second sort
check inside the `after` branch, lines 83-84, is unreachable because the
first already raised).  An `after` token that fails to decode raises
`BadRequest` before the store is queried (lines 85-88). -/
def runs (db : List ExperimentRunRow) (experiment_id : Int)
    (first : Option Int) (after : Option GlobalID)
    (sort : Option ExperimentRunSort) : Except RunsError Connection :=
  let page_size := first.getD DEFAULT_EXPERIMENT_RUNS_PAGE_SIZE
  match sort with
  | some _ => .error .notImplementedError
  | none =>
    match after with
    | none => .ok (runsPage db experiment_id page_size none)
    | some a =>
      match from_global_id_with_expected_type a "ExperimentRun" with
      | .error _ => .error (.badRequest a)
      | .ok after_run_id => .ok (runsPage db experiment_id page_size (some after_run_id))

/-- Number of rows of the store that satisfy the WHERE clauses of the page
query: rows of the parent experiment strictly after the cursor position (all
rows of the parent when there is no cursor). -/
def runsMatchCount (db : List ExperimentRunRow) (experiment_id : Int)
    (after_run_id : Option Int) : Nat :=
  (db.filter (rowPassesWhere db (runsWhereClauses experiment_id after_run_id))).length

/-- Relation between an optional `after` token and the optional row id it
decodes to. -/
def decodesTo : Option GlobalID → Option Int → Prop
  | none, none => True
  | some a, some i => from_global_id_with_expected_type a "ExperimentRun" = .ok i
  | _, _ => False

/-! ## Concrete sample data -/

/-- Run `a` of the spec's worked example: latency 10. -/
def runRowA : ExperimentRunRow := ⟨1, 1, 1, 1, 10⟩

/-- Run `b` of the spec's worked example: latency 30. -/
def runRowB : ExperimentRunRow := ⟨2, 1, 2, 1, 30⟩

/-- Run `c` of the spec's worked example: latency 20. -/
def runRowC : ExperimentRunRow := ⟨3, 1, 3, 1, 20⟩

/-- A store holding one experiment (id 1) with the three runs of the spec's
worked example. -/
def sampleDb : List ExperimentRunRow := [runRowA, runRowB, runRowC]

/-- The sort input selecting metric `latencyMs` with direction `desc`. -/
def latencyDescSort : ExperimentRunSort :=
  ⟨⟨some ExperimentRunMetric.latencyMs, none⟩, SortDir.desc⟩

/-- A run belonging to a different experiment (id 2). -/
def foreignRun : ExperimentRunRow := ⟨10, 2, 0, 0, 5⟩

/-- A store with two experiments: the three sample runs of experiment 1 plus
one run of experiment 2. -/
def twoExpDb : List ExperimentRunRow := [runRowA, runRowB, runRowC, foreignRun]

/-! ## Basic lemmas about the embedding -/

theorem intCmp_eq_iff {a b : Int} : intCmp a b = Ordering.eq ↔ a = b := by
  unfold intCmp
  split
  · constructor
    · intro h
      exact absurd h (by simp)
    · omega
  · split
    · simp only [true_iff]
      omega
    · constructor
      · intro h
        exact absurd h (by simp)
      · omega

theorem intCmp_gt_iff {a b : Int} : intCmp a b = Ordering.gt ↔ b < a := by
  unfold intCmp
  split
  · constructor
    · intro h
      exact absurd h (by simp)
    · omega
  · split
    · constructor
      · intro h
        exact absurd h (by simp)
      · omega
    · simp only [true_iff]
      omega

theorem intCmp_lt_iff {a b : Int} : intCmp a b = Ordering.lt ↔ a < b := by
  unfold intCmp
  split
  · simpa
  · split
    · constructor
      · intro h
        exact absurd h (by simp)
      · omega
    · constructor
      · intro h
        exact absurd h (by simp)
      · omega

/-- Row-value comparison of two integer pairs is lexicographic. -/
theorem sqlCmp_pair_int (a1 a2 b1 b2 : Int) :
    sqlCmp (SqlVal.pair (SqlVal.int a1) (SqlVal.int a2))
        (SqlVal.pair (SqlVal.int b1) (SqlVal.int b2)) =
      some ((intCmp a1 b1).then (intCmp a2 b2)) := by
  cases hc : intCmp a1 b1 <;> simp [sqlCmp, hc, Ordering.then]

/-- The lexicographic comparison is `gt` exactly for the strict tuple
ordering. -/
theorem tuple_gt_iff (a1 a2 b1 b2 : Int) :
    (intCmp a1 b1).then (intCmp a2 b2) = Ordering.gt ↔
      (b1 < a1 ∨ (b1 = a1 ∧ b2 < a2)) := by
  cases hc : intCmp a1 b1 with
  | lt =>
    have h1 := intCmp_lt_iff.mp hc
    simp only [Ordering.then]
    constructor
    · intro h
      exact absurd h (by decide)
    · rintro (h | ⟨h, h2⟩) <;> omega
  | eq =>
    have h1 := intCmp_eq_iff.mp hc
    simp only [Ordering.then]
    rw [intCmp_gt_iff]
    constructor
    · intro h
      exact Or.inr ⟨h1.symm, h⟩
    · rintro (h | ⟨-, h⟩)
      · omega
      · exact h
  | gt =>
    have h1 := intCmp_gt_iff.mp hc
    simp only [Ordering.then]
    constructor
    · intro h
      exact Or.inl h1
    · intro h
      trivial

theorem length_insertOrd (le : ExperimentRunRow → ExperimentRunRow → Bool)
    (x : ExperimentRunRow) (l : List ExperimentRunRow) :
    (insertOrd le x l).length = l.length + 1 := by
  induction l with
  | nil => rfl
  | cons y ys ih =>
    unfold insertOrd
    split
    · simp
    · simp [ih]

theorem length_sortByLe (le : ExperimentRunRow → ExperimentRunRow → Bool)
    (l : List ExperimentRunRow) : (sortByLe le l).length = l.length := by
  induction l with
  | nil => rfl
  | cons x xs ih =>
    unfold sortByLe
    rw [length_insertOrd, ih]
    rfl

theorem mem_insertOrd {le : ExperimentRunRow → ExperimentRunRow → Bool}
    {x y : ExperimentRunRow} {l : List ExperimentRunRow} :
    y ∈ insertOrd le x l ↔ y = x ∨ y ∈ l := by
  induction l with
  | nil => simp [insertOrd]
  | cons z zs ih =>
    unfold insertOrd
    split
    · simp
    · simp only [List.mem_cons, ih]
      tauto

theorem mem_sortByLe {le : ExperimentRunRow → ExperimentRunRow → Bool}
    {y : ExperimentRunRow} {l : List ExperimentRunRow} :
    y ∈ sortByLe le l ↔ y ∈ l := by
  induction l with
  | nil => simp [sortByLe]
  | cons x xs ih =>
    unfold sortByLe
    rw [mem_insertOrd, ih]
    simp

theorem mem_pySliceTo {xs : List ExperimentRunRow} {n : Int}
    {y : ExperimentRunRow} (h : y ∈ pySliceTo xs n) : y ∈ xs := by
  unfold pySliceTo at h
  split at h <;> exact List.mem_of_mem_take h

theorem pySliceTo_of_nonneg (xs : List ExperimentRunRow) {n : Int}
    (h : 0 ≤ n) : pySliceTo xs n = xs.take n.toNat := by
  unfold pySliceTo
  rw [if_pos h]

/-- The page query's WHERE clauses are the parent filter followed by the
optional after-predicate. -/
theorem runsFinalQuery_whereClauses (eid ps : Int) (rid : Option Int) :
    (runsFinalQuery eid ps rid).whereClauses = runsWhereClauses eid rid := by
  cases rid <;> rfl

/-- The page query always carries `LIMIT page_size + 1`. -/
theorem runsFinalQuery_limit (eid ps : Int) (rid : Option Int) :
    (runsFinalQuery eid ps rid).limitN = some (ps + 1) := by
  cases rid <;> rfl

/-- The page query orders by the default composite key. -/
theorem runsFinalQuery_orderBy (eid ps : Int) (rid : Option Int) :
    (runsFinalQuery eid ps rid).orderByCols =
      [(Col.dataset_example_id, SortDir.asc), (Col.repetition_number, SortDir.asc)] := by
  cases rid <;> rfl

/-- Executing the page query: sort the matching rows, keep the first
`(page_size + 1).toNat`. -/
theorem runSelect_runsFinalQuery (db : List ExperimentRunRow) (eid ps : Int)
    (rid : Option Int) :
    runSelect db (runsFinalQuery eid ps rid) =
      (sortByLe (ordKeyLe (runsFinalQuery eid ps rid).orderByCols)
        (db.filter (rowPassesWhere db (runsWhereClauses eid rid)))).take (ps + 1).toNat := by
  cases rid <;> rfl

/-- Length of the executed page query's result. -/
theorem runSelect_runsFinalQuery_length (db : List ExperimentRunRow)
    (eid ps : Int) (rid : Option Int) :
    (runSelect db (runsFinalQuery eid ps rid)).length =
      min (ps + 1).toNat (runsMatchCount db eid rid) := by
  rw [runSelect_runsFinalQuery, List.length_take, length_sortByLe, runsMatchCount]

/-- Every row of the executed page query satisfies the WHERE clauses. -/
theorem runSelect_runsFinalQuery_passes (db : List ExperimentRunRow)
    (eid ps : Int) (rid : Option Int) {r : ExperimentRunRow}
    (h : r ∈ runSelect db (runsFinalQuery eid ps rid)) :
    rowPassesWhere db (runsWhereClauses eid rid) r = true := by
  rw [runSelect_runsFinalQuery] at h
  have h2 := List.mem_of_mem_take h
  rw [mem_sortByLe] at h2
  exact (List.mem_filter.mp h2).2

/-- With a decoded cursor, `runs` returns exactly the assembled page. -/
theorem runs_eq_runsPage (db : List ExperimentRunRow) (eid : Int)
    (first : Option Int) (after : Option GlobalID) (rid : Option Int)
    (h : decodesTo after rid) :
    runs db eid first after none =
      .ok (runsPage db eid (first.getD DEFAULT_EXPERIMENT_RUNS_PAGE_SIZE) rid) := by
  cases after with
  | none =>
    cases rid with
    | none => rfl
    | some i => exact absurd h (by simp [decodesTo])
  | some a =>
    cases rid with
    | none => exact absurd h (by simp [decodesTo])
    | some i =>
      simp only [decodesTo] at h
      simp [runs, h]

/-- A successful `runs` call had no sort and returned an assembled page for
some decoded cursor position. -/
theorem runs_ok_elim {db : List ExperimentRunRow} {eid : Int}
    {first : Option Int} {after : Option GlobalID}
    {sort : Option ExperimentRunSort} {conn : Connection}
    (h : runs db eid first after sort = .ok conn) :
    sort = none ∧
      ∃ rid : Option Int,
        conn = runsPage db eid (first.getD DEFAULT_EXPERIMENT_RUNS_PAGE_SIZE) rid := by
  cases sort with
  | some s => exact absurd h (by simp [runs])
  | none =>
    refine ⟨rfl, ?_⟩
    cases after with
    | none =>
      exact ⟨none, (Except.ok.inj h).symm⟩
    | some a =>
      cases hdec : from_global_id_with_expected_type a "ExperimentRun" with
      | error e => rw [runs] at h; simp [hdec] at h
      | ok i =>
        rw [runs] at h
        simp only [hdec] at h
        exact ⟨some i, (Except.ok.inj h).symm⟩

/-- Page-assembly specification: for a nonnegative page size, `hasNextPage`
holds iff strictly more matching rows exist than the page size, and the
returned edge count is the smaller of the page size and the matching-row
count. -/
theorem runsPage_spec (db : List ExperimentRunRow) (eid N : Int)
    (rid : Option Int) (hN : 0 ≤ N) :
    ((runsPage db eid N rid).hasNextPage = true ↔
      N < (runsMatchCount db eid rid : Int)) ∧
    (runsPage db eid N rid).edges.length = min N.toNat (runsMatchCount db eid rid) := by
  have hlen := runSelect_runsFinalQuery_length db eid N rid
  unfold runsPage
  simp only [List.length_map, decide_eq_true_eq]
  constructor
  · rw [hlen]
    omega
  · split
    · rename_i hgt
      rw [pySliceTo_of_nonneg _ hN, List.length_take, hlen]
      rw [hlen] at hgt
      omega
    · rename_i hle
      rw [hlen]
      rw [hlen] at hle
      omega

/-- A row passing the page query's WHERE clauses belongs to the parent
experiment: the parent-id filter is the first clause, before any
after-predicate. -/
theorem passes_runsWhereClauses_experiment {db : List ExperimentRunRow}
    {eid : Int} {rid : Option Int} {r : ExperimentRunRow}
    (h : rowPassesWhere db (runsWhereClauses eid rid) r = true) :
    r.experiment_id = eid := by
  have hhead : evalBool db r
      (SqlBoolExpr.eq (SqlExpr.col Col.experiment_id) (SqlExpr.lit eid)) = some true := by
    cases rid <;>
    · simp only [runsWhereClauses, rowPassesWhere, List.all_cons, Bool.and_eq_true,
        decide_eq_true_eq] at h
      exact h.1
  simp only [evalBool, evalExpr, colValue, sqlCmp, Option.map_some', Option.some.injEq,
    decide_eq_true_eq] at hhead
  exact intCmp_eq_iff.mp hhead

/-- Every edge of an assembled page carries a row of the executed page
query's result. -/
theorem runsPage_edge_mem {db : List ExperimentRunRow} {eid ps : Int}
    {rid : Option Int} {e : GlobalID × ExperimentRunRow}
    (he : e ∈ (runsPage db eid ps rid).edges) :
    e.2 ∈ runSelect db (runsFinalQuery eid ps rid) := by
  unfold runsPage at he
  simp only [List.mem_map] at he
  obtain ⟨r, hr, rfl⟩ := he
  split at hr
  · exact mem_pySliceTo hr
  · exact hr

/-! ## Claims -/

/-- C5: for every sort spec selecting the metric `tokenCountTotal` or
`tokenCostTotal`, every step of the query builder — ordering-column
resolution, after-predicate resolution, join resolution — raises a
not-implemented error, and `add_order_by_and_page_start_to_query` fails as a
whole (with or without a resume identifier), so the request never returns a
page in the default ordering instead. -/
theorem builder_unimplemented_metric_errors
    (m : ExperimentRunMetric) (d : SortDir) (ann : Option String)
    (q : Select) (rowid : Int)
    (hm : m = ExperimentRunMetric.tokenCountTotal ∨
      m = ExperimentRunMetric.tokenCostTotal) :
    get_order_by_columns (some ⟨⟨some m, ann⟩, d⟩) = .error "NotImplementedError" ∧
    get_after_expression (some ⟨⟨some m, ann⟩, d⟩) rowid = .error "NotImplementedError" ∧
    add_joins_to_query q (some ⟨⟨some m, ann⟩, d⟩) = .error "NotImplementedError" ∧
    add_order_by_and_page_start_to_query q (some ⟨⟨some m, ann⟩, d⟩) (some rowid) =
      .error "NotImplementedError" ∧
    add_order_by_and_page_start_to_query q (some ⟨⟨some m, ann⟩, d⟩) none =
      .error "NotImplementedError" := by
  rcases hm with rfl | rfl <;> exact ⟨rfl, rfl, rfl, rfl, rfl⟩

/-- Witness for C5: the builder rejects a `tokenCountTotal` ascending sort at
every step on a concrete query. -/
theorem builder_unimplemented_metric_errors_witness :
    get_order_by_columns
        (some ⟨⟨some ExperimentRunMetric.tokenCountTotal, none⟩, SortDir.asc⟩) =
      .error "NotImplementedError" ∧
    get_after_expression
        (some ⟨⟨some ExperimentRunMetric.tokenCountTotal, none⟩, SortDir.asc⟩) 1 =
      .error "NotImplementedError" ∧
    add_joins_to_query Select.init
        (some ⟨⟨some ExperimentRunMetric.tokenCountTotal, none⟩, SortDir.asc⟩) =
      .error "NotImplementedError" ∧
    add_order_by_and_page_start_to_query Select.init
        (some ⟨⟨some ExperimentRunMetric.tokenCountTotal, none⟩, SortDir.asc⟩) (some 1) =
      .error "NotImplementedError" ∧
    add_order_by_and_page_start_to_query Select.init
        (some ⟨⟨some ExperimentRunMetric.tokenCountTotal, none⟩, SortDir.asc⟩) none =
      .error "NotImplementedError" :=
  builder_unimplemented_metric_errors ExperimentRunMetric.tokenCountTotal SortDir.asc
    none Select.init 1 (Or.inl rfl)

/-- C6: for every `after` token that is malformed or decodes to the wrong
entity type, `Experiment.runs` raises the client-facing `BadRequest` error —
uniformly in the store contents, so the main page query is never consulted,
no partial page is returned, and the request does not silently start from
the beginning. -/
theorem runs_invalid_after_is_bad_request
    (db : List ExperimentRunRow) (eid : Int) (first : Option Int)
    (a : GlobalID) (e : String)
    (herr : from_global_id_with_expected_type a "ExperimentRun" = .error e) :
    runs db eid first (some a) none = .error (.badRequest a) := by
  simp [runs, herr]

/-- Witness for C6: a token of entity type `Dataset` is rejected with
`BadRequest` on a concrete store. -/
theorem runs_invalid_after_is_bad_request_witness :
    runs sampleDb 1 (some 50) (some ⟨"Dataset", "1"⟩) none =
      .error (.badRequest ⟨"Dataset", "1"⟩) :=
  runs_invalid_after_is_bad_request sampleDb 1 (some 50) ⟨"Dataset", "1"⟩
    "unexpected type name" rfl

/-- C9: whenever `Experiment.runs` returns a connection — whatever the
experiment, sort, cursor, or page size — that connection reports
`hasPreviousPage = false`. -/
theorem runs_hasPreviousPage_always_false
    (db : List ExperimentRunRow) (eid : Int) (first : Option Int)
    (after : Option GlobalID) (sort : Option ExperimentRunSort)
    (conn : Connection)
    (h : runs db eid first after sort = .ok conn) :
    conn.hasPreviousPage = false := by
  obtain ⟨-, rid, hconn⟩ := runs_ok_elim h
  subst hconn
  rfl

/-- Witness for C9: a concrete successful page reports
`hasPreviousPage = false`. -/
theorem runs_hasPreviousPage_always_false_witness :
    (Connection.mk [] false true).hasPreviousPage = false :=
  runs_hasPreviousPage_always_false sampleDb 1 (some 0) none none
    (Connection.mk [] false true) rfl

/-- C4 counterexample: on the spec's worked example — runs `a`, `b`, `c` of
experiment 1 with latencies 10, 30, 20 — requesting `runs` with
sort metric `latencyMs` direction `desc` does not return the order
`[b, c, a]`: it raises `NotImplementedError`, both without a cursor
(page size 2) and with `after = cursor(c)`. -/
theorem runs_latency_sort_raises :
    runs sampleDb 1 (some 2) none (some latencyDescSort) =
      .error .notImplementedError ∧
    runs sampleDb 1 (some 2) (some ⟨"ExperimentRun", "3"⟩) (some latencyDescSort) =
      .error .notImplementedError :=
  ⟨rfl, rfl⟩

/-- C4 amended: the `runs` resolver itself raises `NotImplementedError` for
any supplied sort, but the keyset query builder
`add_order_by_and_page_start_to_query`, applied to the base experiment query
with metric `latencyMs` direction `desc` over latencies `[10, 30, 20]`
(ids `1`=a, `2`=b, `3`=c), yields the row order `[b, c, a]`; trimming the
first page to size 2 gives `[b, c]` with a next page, and resuming after
`c` (row id 3) yields exactly `[a]`. -/
theorem builder_latency_desc_pages :
    runs sampleDb 1 (some 2) none (some latencyDescSort) =
      .error .notImplementedError ∧
    (add_order_by_and_page_start_to_query (experiment_runs_query 1 2)
          (some latencyDescSort) none).map
        (fun q => ((runSelect sampleDb q).map (fun r => r.id),
          (pySliceTo (runSelect sampleDb q) 2).map (fun r => r.id),
          decide ((2 : Int) < ((runSelect sampleDb q).length : Int)))) =
      .ok ([2, 3, 1], [2, 3], true) ∧
    (add_order_by_and_page_start_to_query (experiment_runs_query 1 2)
          (some latencyDescSort) (some 3)).map
        (fun q => (runSelect sampleDb q).map (fun r => r.id)) =
      .ok [1] :=
  ⟨rfl, rfl, rfl⟩

/-- C1: for every experiment and every supplied page size `N ≥ 1`, the page
query of `Experiment.runs` carries `LIMIT N + 1`; the returned connection
reports `hasNextPage = true` iff strictly more than `N` rows match the query
— rows of the experiment beyond the cursor in the active ordering — and the
result is trimmed to at most `N` edges (exactly `min N count`). -/
theorem runs_extra_row_and_hasNextPage
    (db : List ExperimentRunRow) (eid N : Int) (hN : 1 ≤ N)
    (after : Option GlobalID) (rid : Option Int) (conn : Connection)
    (hdec : decodesTo after rid)
    (h : runs db eid (some N) after none = .ok conn) :
    (experiment_runs_query eid N).limitN = some (N + 1) ∧
    (conn.hasNextPage = true ↔ N < (runsMatchCount db eid rid : Int)) ∧
    conn.edges.length = min N.toNat (runsMatchCount db eid rid) := by
  have hrp := runs_eq_runsPage db eid (some N) after rid hdec
  rw [h] at hrp
  have hconn : conn = runsPage db eid N rid := Except.ok.inj hrp
  obtain ⟨h1, h2⟩ := runsPage_spec db eid N rid (by omega)
  subst hconn
  exact ⟨rfl, h1, h2⟩

/-- Witness for C1: with page size 1 on a three-run experiment, the page
query carries LIMIT 2, one edge is returned, and `hasNextPage` is true. -/
theorem runs_extra_row_and_hasNextPage_witness :
    (experiment_runs_query 1 1).limitN = some 2 ∧
    ((Connection.mk [(⟨"ExperimentRun", "1"⟩, runRowA)] false true).hasNextPage = true ↔
      (1 : Int) < (runsMatchCount sampleDb 1 none : Int)) ∧
    (Connection.mk [(⟨"ExperimentRun", "1"⟩, runRowA)] false true).edges.length =
      min (1 : Int).toNat (runsMatchCount sampleDb 1 none) :=
  runs_extra_row_and_hasNextPage sampleDb 1 1 (by decide) none none
    (Connection.mk [(⟨"ExperimentRun", "1"⟩, runRowA)] false true) trivial rfl

/-- C2: for every base query and resume row identifier, the builder with no
sort spec orders by the composite key
`(dataset_example_id asc, repetition_number asc)`; with a resume identifier
it additionally appends the strict lexicographic tuple predicate
`(dataset_example_id, repetition_number) > (a0, b0)` whose right-hand values
are read (by scalar subqueries) from the row identified by the resume
identifier, and with no resume identifier no predicate is added. -/
theorem builder_default_sort_spec
    (q : Select) (rowid : Int) (db : List ExperimentRunRow)
    (r0 r : ExperimentRunRow)
    (hfind : db.find? (fun s => s.id == rowid) = some r0) :
    add_order_by_and_page_start_to_query q none none =
      .ok (q.orderByAdd
        [(Col.dataset_example_id, SortDir.asc), (Col.repetition_number, SortDir.asc)]) ∧
    add_order_by_and_page_start_to_query q none (some rowid) =
      .ok ((q.orderByAdd
        [(Col.dataset_example_id, SortDir.asc),
         (Col.repetition_number, SortDir.asc)]).whereAdd (runsAfterClause rowid)) ∧
    (evalBool db r (runsAfterClause rowid) = some true ↔
      (r0.dataset_example_id < r.dataset_example_id ∨
        (r0.dataset_example_id = r.dataset_example_id ∧
          r0.repetition_number < r.repetition_number))) := by
  refine ⟨rfl, rfl, ?_⟩
  simp only [runsAfterClause, evalBool, evalExpr, hfind, colValue]
  rw [sqlCmp_pair_int]
  simp only [Option.map_some', Option.some.injEq, decide_eq_true_eq]
  exact tuple_gt_iff r.dataset_example_id r.repetition_number
    r0.dataset_example_id r0.repetition_number

/-- Witness for C2: concrete builder outputs and a concrete evaluation of
the tuple predicate, with the cursor row being run `a`. -/
theorem builder_default_sort_spec_witness :
    add_order_by_and_page_start_to_query Select.init none none =
      .ok (Select.init.orderByAdd
        [(Col.dataset_example_id, SortDir.asc), (Col.repetition_number, SortDir.asc)]) ∧
    add_order_by_and_page_start_to_query Select.init none (some 1) =
      .ok ((Select.init.orderByAdd
        [(Col.dataset_example_id, SortDir.asc),
         (Col.repetition_number, SortDir.asc)]).whereAdd (runsAfterClause 1)) ∧
    (evalBool sampleDb runRowB (runsAfterClause 1) = some true ↔
      (runRowA.dataset_example_id < runRowB.dataset_example_id ∨
        (runRowA.dataset_example_id = runRowB.dataset_example_id ∧
          runRowA.repetition_number < runRowB.repetition_number))) :=
  builder_default_sort_spec Select.init 1 sampleDb runRowA runRowB rfl

/-- C3: every row returned by `Experiment.runs` belongs to the requested
experiment, for every `after` cursor — including one identifying a run of a
different experiment — because the parent filter is part of the query before
the after-predicate is added; a cross-parent cursor can therefore never
yield rows of another experiment. -/
theorem runs_rows_belong_to_experiment
    (db : List ExperimentRunRow) (eid : Int) (first : Option Int)
    (after : Option GlobalID) (sort : Option ExperimentRunSort)
    (conn : Connection)
    (h : runs db eid first after sort = .ok conn) :
    ∀ e ∈ conn.edges, e.2.experiment_id = eid := by
  obtain ⟨-, rid, hconn⟩ := runs_ok_elim h
  subst hconn
  intro e he
  exact passes_runsWhereClauses_experiment
    (runSelect_runsFinalQuery_passes db eid _ rid (runsPage_edge_mem he))

/-- Witness for C3: with a cursor pointing at a run of experiment 2, a row
returned for experiment 1 still belongs to experiment 1. -/
theorem runs_rows_belong_to_experiment_witness :
    ((⟨"ExperimentRun", "3"⟩ : GlobalID), runRowC).2.experiment_id = 1 :=
  runs_rows_belong_to_experiment twoExpDb 1 (some 50)
    (some ⟨"ExperimentRun", "10"⟩) none
    (Connection.mk
      [(⟨"ExperimentRun", "1"⟩, runRowA), (⟨"ExperimentRun", "2"⟩, runRowB),
       (⟨"ExperimentRun", "3"⟩, runRowC)] false false) rfl
    ((⟨"ExperimentRun", "3"⟩ : GlobalID), runRowC) (by decide)

/-- C7 counterexample: for a resume identifier whose row does not exist
(id 99 is absent from the store), the page request does not fail with an
invalid-state error: it succeeds, silently returning an empty page. -/
theorem runs_missing_after_row_no_error :
    sampleDb.find? (fun s => s.id == 99) = none ∧
    runs sampleDb 1 (some 50) (some ⟨"ExperimentRun", "99"⟩) none =
      .ok (Connection.mk [] false false) :=
  ⟨rfl, rfl⟩

/-- C7 amended: for every resume identifier whose row no longer exists at
cursor-resolution time, `Experiment.runs` raises no error at all: the scalar
subqueries yield NULL, the after-predicate is never satisfied, and the
operation silently returns an empty page with `hasNextPage = false`
(for any nonnegative page size). -/
theorem runs_missing_after_row_silently_empty
    (db : List ExperimentRunRow) (eid N rid : Int) (a : GlobalID)
    (hdec : from_global_id_with_expected_type a "ExperimentRun" = .ok rid)
    (hfind : db.find? (fun s => s.id == rid) = none)
    (hN : 0 ≤ N) :
    runs db eid (some N) (some a) none = .ok (Connection.mk [] false false) := by
  have hfilter : db.filter (rowPassesWhere db (runsWhereClauses eid (some rid))) = [] := by
    rw [List.filter_eq_nil_iff]
    intro r hr
    simp [runsWhereClauses, rowPassesWhere, evalBool, evalExpr, runsAfterClause,
      hfind, sqlCmp]
  have hpage : runsPage db eid N (some rid) = Connection.mk [] false false := by
    unfold runsPage
    rw [runSelect_runsFinalQuery, hfilter]
    simp [sortByLe, pySliceTo]
    omega
  simp [runs, hdec, hpage]

/-- Witness for C7 amended: a concrete dangling cursor (row id 42) on a
concrete store yields the silent empty page. -/
theorem runs_missing_after_row_silently_empty_witness :
    runs sampleDb 2 (some 7) (some ⟨"ExperimentRun", "42"⟩) none =
      .ok (Connection.mk [] false false) :=
  runs_missing_after_row_silently_empty sampleDb 2 7 42 ⟨"ExperimentRun", "42"⟩
    rfl rfl (by decide)

/-- C8: for a sort spec selecting metric `latencyMs`, the builder orders by
the latency column ascending for direction `asc` and descending for `desc`,
and the after-predicate compares the latency column against the identified
row's latency value — strict `>` for ascending, strict `<` for
descending. -/
theorem builder_latency_sort_spec
    (rowid : Int) (ann : Option String) (db : List ExperimentRunRow)
    (r0 r : ExperimentRunRow)
    (hfind : db.find? (fun s => s.id == rowid) = some r0) :
    get_order_by_columns (some ⟨⟨some ExperimentRunMetric.latencyMs, ann⟩, SortDir.asc⟩) =
      .ok [(Col.latency_ms, SortDir.asc)] ∧
    get_order_by_columns (some ⟨⟨some ExperimentRunMetric.latencyMs, ann⟩, SortDir.desc⟩) =
      .ok [(Col.latency_ms, SortDir.desc)] ∧
    get_after_expression
        (some ⟨⟨some ExperimentRunMetric.latencyMs, ann⟩, SortDir.asc⟩) rowid =
      .ok (SqlBoolExpr.gt (SqlExpr.col Col.latency_ms)
        (SqlExpr.scalarSubquery Col.latency_ms rowid)) ∧
    get_after_expression
        (some ⟨⟨some ExperimentRunMetric.latencyMs, ann⟩, SortDir.desc⟩) rowid =
      .ok (SqlBoolExpr.lt (SqlExpr.col Col.latency_ms)
        (SqlExpr.scalarSubquery Col.latency_ms rowid)) ∧
    (evalBool db r (SqlBoolExpr.gt (SqlExpr.col Col.latency_ms)
        (SqlExpr.scalarSubquery Col.latency_ms rowid)) = some true ↔
      r0.latency_ms < r.latency_ms) ∧
    (evalBool db r (SqlBoolExpr.lt (SqlExpr.col Col.latency_ms)
        (SqlExpr.scalarSubquery Col.latency_ms rowid)) = some true ↔
      r.latency_ms < r0.latency_ms) := by
  refine ⟨rfl, rfl, rfl, rfl, ?_, ?_⟩
  · simp only [evalBool, evalExpr, hfind, colValue, sqlCmp, Option.map_some',
      Option.some.injEq, decide_eq_true_eq]
    exact intCmp_gt_iff
  · simp only [evalBool, evalExpr, hfind, colValue, sqlCmp, Option.map_some',
      Option.some.injEq, decide_eq_true_eq]
    exact intCmp_lt_iff

/-- Witness for C8: the latency builder outputs and both after-predicate
evaluations at run `c` as cursor row and run `b` as candidate. -/
theorem builder_latency_sort_spec_witness :
    get_order_by_columns (some ⟨⟨some ExperimentRunMetric.latencyMs, none⟩, SortDir.asc⟩) =
      .ok [(Col.latency_ms, SortDir.asc)] ∧
    get_order_by_columns (some ⟨⟨some ExperimentRunMetric.latencyMs, none⟩, SortDir.desc⟩) =
      .ok [(Col.latency_ms, SortDir.desc)] ∧
    get_after_expression
        (some ⟨⟨some ExperimentRunMetric.latencyMs, none⟩, SortDir.asc⟩) 3 =
      .ok (SqlBoolExpr.gt (SqlExpr.col Col.latency_ms)
        (SqlExpr.scalarSubquery Col.latency_ms 3)) ∧
    get_after_expression
        (some ⟨⟨some ExperimentRunMetric.latencyMs, none⟩, SortDir.desc⟩) 3 =
      .ok (SqlBoolExpr.lt (SqlExpr.col Col.latency_ms)
        (SqlExpr.scalarSubquery Col.latency_ms 3)) ∧
    (evalBool sampleDb runRowB (SqlBoolExpr.gt (SqlExpr.col Col.latency_ms)
        (SqlExpr.scalarSubquery Col.latency_ms 3)) = some true ↔
      runRowC.latency_ms < runRowB.latency_ms) ∧
    (evalBool sampleDb runRowB (SqlBoolExpr.lt (SqlExpr.col Col.latency_ms)
        (SqlExpr.scalarSubquery Col.latency_ms 3)) = some true ↔
      runRowB.latency_ms < runRowC.latency_ms) :=
  builder_latency_sort_spec 3 none sampleDb runRowC runRowB rfl

/-- C10: `Experiment.runs` never validates that `first` is positive: every
`first` value is accepted without error, `first = null` falls back to the
default page size of 50, and `first = 0` on an experiment with at least one
run returns an empty page whose `hasNextPage` is true. -/
theorem runs_first_not_validated
    (db : List ExperimentRunRow) (eid : Int) (first : Option Int)
    (r0 : ExperimentRunRow) (hmem : r0 ∈ db) (heid : r0.experiment_id = eid) :
    runs db eid first none none =
      .ok (runsPage db eid (first.getD DEFAULT_EXPERIMENT_RUNS_PAGE_SIZE) none) ∧
    runs db eid none none none = runs db eid (some 50) none none ∧
    runs db eid (some 0) none none = .ok (runsPage db eid 0 none) ∧
    (runsPage db eid 0 none).edges = [] ∧
    (runsPage db eid 0 none).hasNextPage = true := by
  refine ⟨rfl, rfl, rfl, ?_, ?_⟩
  · obtain ⟨-, h2⟩ := runsPage_spec db eid 0 none le_rfl
    have h0 : (runsPage db eid 0 none).edges.length = 0 := by simpa using h2
    exact List.length_eq_zero.mp h0
  · obtain ⟨h1, -⟩ := runsPage_spec db eid 0 none le_rfl
    refine h1.mpr ?_
    have hpass : rowPassesWhere db (runsWhereClauses eid none) r0 = true := by
      simp [runsWhereClauses, rowPassesWhere, evalBool, evalExpr, colValue, sqlCmp,
        heid, intCmp]
    have hmemf : r0 ∈ db.filter (rowPassesWhere db (runsWhereClauses eid none)) :=
      List.mem_filter.mpr ⟨hmem, hpass⟩
    have hpos : 0 < runsMatchCount db eid none := by
      rw [runsMatchCount]
      exact List.length_pos_of_mem hmemf
    exact_mod_cast hpos

/-- Witness for C10: on the three-run store, `first = -5` is accepted,
null defaults to 50, and `first = 0` gives an empty page with a next
page. -/
theorem runs_first_not_validated_witness :
    runs sampleDb 1 (some (-5)) none none =
      .ok (runsPage sampleDb 1 ((some (-5) : Option Int).getD
        DEFAULT_EXPERIMENT_RUNS_PAGE_SIZE) none) ∧
    runs sampleDb 1 none none none = runs sampleDb 1 (some 50) none none ∧
    runs sampleDb 1 (some 0) none none = .ok (runsPage sampleDb 1 0 none) ∧
    (runsPage sampleDb 1 0 none).edges = [] ∧
    (runsPage sampleDb 1 0 none).hasNextPage = true :=
  runs_first_not_validated sampleDb 1 (some (-5)) runRowA (by decide) rfl

end Phoenix
